import Mathlib

/-!
Verification of `VSR/Framework/Callbacks.py`.

Arrays are embedded as lists of rationals (pixel values); shapes, where they
matter, are carried explicitly as lists of naturals.  Randomness is embedded
by passing the realized random draw as an explicit argument together with a
predicate characterising what the sampler guarantees about it.
-/

/-- Decidable equality for `Except`, so that concrete runs of the embedded
functions can be checked by `decide`. -/
instance exceptDecEq {ε α : Type} [DecidableEq ε] [DecidableEq α] :
    DecidableEq (Except ε α) := fun x y =>
  match x, y with
  | Except.error a, Except.error b =>
      if h : a = b then Decidable.isTrue (by rw [h])
      else Decidable.isFalse (fun hc => by injection hc; exact h (by assumption))
  | Except.error _, Except.ok _ => Decidable.isFalse (fun hc => by injection hc)
  | Except.ok _, Except.error _ => Decidable.isFalse (fun hc => by injection hc)
  | Except.ok a, Except.ok b =>
      if h : a = b then Decidable.isTrue (by rw [h])
      else Decidable.isFalse (fun hc => by injection hc; exact h (by assumption))

/-- The possible values of the Python keyword argument `output` in
`_sub_residual`: `None`, a list of arrays, or a single one-dimensional array. -/
inductive PyOut where
  | none
  | list (xs : List (List ℚ))
  | arr (a : List ℚ)

/-- Numpy subtraction `img - res` on one-dimensional arrays, with numpy's
broadcasting rules: a length-one operand is broadcast against the other
operand; otherwise the lengths must agree. -/
def npSub (a b : List ℚ) : Except String (List ℚ) :=
  if b.length = 1 then Except.ok (a.map (fun x => x - b.headI))
  else if a.length = 1 then Except.ok (b.map (fun y => a.headI - y))
  else if a.length = b.length then Except.ok (List.zipWith (fun x y => x - y) a b)
  else Except.error ("operands could not be broadcast together")

/-- `_sub_residual` (Callbacks.py:19-23).
`res = kwargs.get('output') or np.zeros_like(img)` evaluates the truth value of
`output`: `None` and an empty Python list are falsy (giving the zero residual);
a non-empty list is truthy; for a numpy array, `bool()` is the value of its
single element when it has exactly one element, and raises
"The truth value of an array with more than one element is ambiguous" otherwise.
Then `res = res[0] if isinstance(res, list) else res`, and `img - res`. -/
def _sub_residual (input : List ℚ) (output : PyOut) : Except String (List ℚ) :=
  match output with
  | PyOut.none => npSub input (List.replicate input.length 0)
  | PyOut.list xs =>
      match xs with
      | [] => npSub input (List.replicate input.length 0)
      | x :: _ => npSub input x
  | PyOut.arr a =>
      if a.length = 1 then
        if a.headI ≠ 0 then npSub input a
        else npSub input (List.replicate input.length 0)
      else Except.error ("ambiguous truth value")

/-- `reduce_residual` (Callbacks.py:130-131) just curries `_sub_residual`. -/
def reduce_residual : List ℚ → PyOut → Except String (List ℚ) := _sub_residual

/-! ## Image normalization and saving (`save_image`) -/

/-- Numpy dtypes that matter to `_to_normalized_image`: the code tests
`img.dtype == np.float32`, so the other floating dtype must be distinguishable
from it. -/
inductive NpDtype where
  | float32
  | float64
  | uint8
deriving DecidableEq

/-- An n-dimensional numpy array: explicit shape, dtype, and the flat
(row-major) data.  Pixel values, which are floats in the Python code, are
embedded as rationals. -/
structure NdImg where
  shape : List ℕ
  dtype : NpDtype
  data : List ℚ
deriving DecidableEq

/-- `np.clip(x, 0, 255)` on a single element. -/
def clip255 (x : ℚ) : ℚ := max 0 (min 255 x)

/-- `np.squeeze(img, i)`: removes axis `i` when its extent is 1; raises a
`ValueError` (returning `none` here) when the extent differs from 1, and an
`AxisError` (a subclass of `ValueError`, also `none` here) when `i` is out of
range for the current array. Only the shape is affected, never the data. -/
def npSqueezeAxis (sh : List ℕ) (i : ℕ) : Option (List ℕ) :=
  if h : i < sh.length then
    if sh.get ⟨i, h⟩ = 1 then some (sh.eraseIdx i) else none
  else none

/-- The squeeze loop of `_to_normalized_image` (Callbacks.py:55-59):
`for i in range(np.ndim(img)): try: img = np.squeeze(img, i) except ValueError:
pass`.  Note that the range is fixed to the *original* number of dimensions
while the array shrinks, so the axis index `i` refers to positions of the
already-squeezed array. -/
def squeezeFold (sh : List ℕ) (indices : List ℕ) : List ℕ :=
  indices.foldl (fun s i => (npSqueezeAxis s i).getD s) sh

/-- Shape produced by the squeeze loop on an array of shape `sh`. -/
def squeezeLoop (sh : List ℕ) : List ℕ := squeezeFold sh (List.range sh.length)

/-- A PIL image as produced by `array_to_img`: a mode string and the pixel
data with its (already squeezed) shape. -/
structure PILImg where
  mode : String
  shape : List ℕ
  data : List ℚ
deriving DecidableEq

/-- The scaling step of `_to_normalized_image` (Callbacks.py:60-61):
`if img.dtype == np.float32 and img.max() <= 1.0: img = img * 255.0`.  The test
is for the exact dtype `float32`, and by short-circuiting, `img.max()` (which
raises on a zero-size array) is only evaluated when the dtype is float32.
Squeezing never changes dtype or data, so the step commutes with the squeeze
loop and is split out here. -/
def normalizeScale (a : NdImg) : Except String (List ℚ) :=
  if a.dtype = NpDtype.float32 then
    match a.data.max? with
    | Option.none => Except.error ("zero-size array to reduction operation maximum")
    | Option.some m => Except.ok (if m ≤ 1 then a.data.map (fun x => x * 255) else a.data)
  else Except.ok a.data

/-- `_to_normalized_image` (Callbacks.py:52-68): squeeze singleton axes, apply
the float32 scaling step, then `np.clip(img, 0, 255)`, and dispatch on the
remaining number of dimensions: 2 → mode 'L', 3 → mode 'YCbCr', anything else
raises `ValueError`. -/
def _to_normalized_image (a : NdImg) : Except String PILImg :=
  match normalizeScale a with
  | Except.error e => Except.error e
  | Except.ok d =>
      let sh := squeezeLoop a.shape
      let clipped := d.map clip255
      if sh.length = 2 then Except.ok ⟨"L", sh, clipped⟩
      else if sh.length = 3 then Except.ok ⟨"YCbCr", sh, clipped⟩
      else Except.error ("Invalid img data, must be an array of 2D image1 with channel less than 3")

/-- Modelled from the spec: `array_to_img` (in `VSR/Util/ImageProcess`, not part
of the given sources) together with `img.convert('RGB').save(path)` writes the
image file; the spec states the decoded pixel values of the written file equal
the clipped/scaled array, so the saved pixels are modelled as exactly the data
of the normalized image. -/
def savedPixels (img : PILImg) : List ℚ := img.data

/-- The `output` argument of `_save_model_predicted_images`: either a list of
arrays or a single array (besides `None`, handled at the call site). -/
inductive ModelOut where
  | single (a : NdImg)
  | listOf (xs : List NdImg)

/-- `_save_model_predicted_images` (Callbacks.py:26-35): when `output` is not
`None`, pick `output[index]` when `output` is a list (an out-of-range index
raises) and `output` itself otherwise, normalize it and write it out.  The
observable result here is the written pixel data (`none` when nothing is
written); directory creation and the path string are not modelled. -/
def _save_model_predicted_images (output : Option ModelOut) (index : ℕ) :
    Except String (Option (List ℚ)) :=
  match output with
  | Option.none => Except.ok Option.none
  | Option.some (ModelOut.single a) =>
      match _to_normalized_image a with
      | Except.error e => Except.error e
      | Except.ok img => Except.ok (Option.some (savedPixels img))
  | Option.some (ModelOut.listOf xs) =>
      match xs[index]? with
      | Option.none => Except.error ("IndexError: list index out of range")
      | Option.some a =>
          match _to_normalized_image a with
          | Except.error e => Except.error e
          | Except.ok img => Except.ok (Option.some (savedPixels img))

/-- `save_image` (Callbacks.py:122-123) curries `_save_model_predicted_images`
with the chosen output index (the save directory is not modelled). -/
def save_image (output_index : ℕ) : Option ModelOut → Except String (Option (List ℚ)) :=
  fun output => _save_model_predicted_images output output_index

/-! ## Noise injection (`add_noise`, `add_random_noise`) -/

/-- `_add_noise` (Callbacks.py:71-73):
`x = feature.astype('float') + np.random.normal(mean, stddev, feature.shape)`,
then `np.clip(x, 0, 255) if clip else x`.  The realized Gaussian sample is
passed explicitly as `noise`; `astype('float')` preserves the pixel values
here, which are already embedded as rationals. -/
def _add_noise (feature noise : List ℚ) (clip : Bool) : List ℚ :=
  let x := List.zipWith (fun a b => a + b) feature noise
  if clip then x.map clip255 else x

/-- What `np.random.normal(mean, stddev, shape)` guarantees about its result:
it has the requested size and, when the standard deviation is zero, it is
exactly the constant `mean`. -/
def isNormalSample (mean stddev : ℚ) (n : ℕ) (noise : List ℚ) : Prop :=
  noise.length = n ∧ (stddev = 0 → noise = List.replicate n mean)

/-- `add_noise sigma mean clip` (Callbacks.py:152-153) binds the parameters of
`_add_noise`; the bound `stddev`/`mean` only influence the result through the
realized `noise` sample, kept explicit here. -/
def add_noise (clip : Bool) : List ℚ → List ℚ → List ℚ :=
  fun feature noise => _add_noise feature noise clip

/-- Fuel-driven unfolding of Python's `range(cur, high, step)` for a positive
step: emit `cur` and move up by `step` while `cur < high`.  The fuel only
bounds the number of iterations; `(high - low).toNat` steps of size ≥ 1 always
suffice to reach `high`. -/
def pyRangeAux (step high : ℤ) : ℕ → ℤ → List ℤ
  | 0, _ => []
  | Nat.succ fuel, cur =>
      if cur < high then cur :: pyRangeAux step high fuel (cur + step) else []

/-- Same, for a negative step: emit while `cur > high`. -/
def pyRangeAuxNeg (step high : ℤ) : ℕ → ℤ → List ℤ
  | 0, _ => []
  | Nat.succ fuel, cur =>
      if high < cur then cur :: pyRangeAuxNeg step high fuel (cur + step) else []

/-- Python's `range(low, high, step)` as a list.  A zero step raises
`ValueError` in Python; that case is modelled as the empty list and is never
exercised below (drawing from an empty range raises anyway). -/
def pyRange (low high step : ℤ) : List ℤ :=
  if 0 < step then pyRangeAux step high (high - low).toNat low
  else if step < 0 then pyRangeAuxNeg step high (low - high).toNat low
  else []

/-- `_add_random_noise` (Callbacks.py:76-80): `n = list(range(low, high, step))`,
`i = np.random.randint(len(n))` (which raises when the range is empty, and
otherwise returns `i < len(n)`; `i` is passed explicitly here), `stddev = n[i]`,
then `_add_noise`.  The result records the chosen stddev and the noisy array;
the realized Gaussian sample is again the explicit `noise`. -/
def _add_random_noise (feature noise : List ℚ) (low high step : ℤ) (i : ℕ)
    (clip : Bool) : Except String (ℤ × List ℚ) :=
  if h : i < (pyRange low high step).length then
    Except.ok ((pyRange low high step).get ⟨i, h⟩, _add_noise feature noise clip)
  else Except.error ("ValueError: low >= high")

/-! ## Learning-rate decay (`lr_decay`) -/

/-- `_exponential_decay` (Callbacks.py:96-97):
`start_lr * decay_rate ** (steps / decay_step)`.  Real-number semantics;
the exponent is a true (float) division, hence real exponentiation. -/
noncomputable def _exponential_decay (lr start_lr epochs steps decay_step decay_rate : ℝ) : ℝ :=
  start_lr * decay_rate ^ (steps / decay_step)

/-- `_poly_decay` (Callbacks.py:100-101):
`(start_lr - end_lr) * (1 - steps / decay_step) ** power + end_lr`. -/
noncomputable def _poly_decay (lr start_lr end_lr epochs steps decay_step power : ℝ) : ℝ :=
  (start_lr - end_lr) * ((1 : ℝ) - steps / decay_step) ^ power + end_lr

/-- `_stair_decay` (Callbacks.py:104-105):
`start_lr * decay_rate ** (steps // decay_step)`: the exponent is a floor
division, hence an integer power. -/
noncomputable def _stair_decay (lr start_lr epochs steps decay_step decay_rate : ℝ) : ℝ :=
  start_lr * decay_rate ^ (⌊steps / decay_step⌋ : ℤ)

/-- The keyword arguments forwarded by `lr_decay` to the decay formulas
(the union of what the three formulas consume). -/
structure DecayKwargs where
  decay_step : ℝ
  decay_rate : ℝ
  end_lr : ℝ
  power : ℝ

/-- `lr_decay` (Callbacks.py:160-168): dispatch on the method name, binding
`start_lr := lr` and the keyword arguments into a closure whose remaining
call-time arguments are `lr`, `epochs`, `steps`; unknown names raise
`ValueError('invalid decay method!')`. -/
noncomputable def lr_decay (method : String) (lr : ℝ) (kw : DecayKwargs) :
    Except String (ℝ → ℝ → ℝ → ℝ) :=
  if method = "exp" then
    Except.ok (fun lr' epochs steps =>
      _exponential_decay lr' lr epochs steps kw.decay_step kw.decay_rate)
  else if method = "poly" then
    Except.ok (fun lr' epochs steps =>
      _poly_decay lr' lr kw.end_lr epochs steps kw.decay_step kw.power)
  else if method = "stair" then
    Except.ok (fun lr' epochs steps =>
      _stair_decay lr' lr epochs steps kw.decay_step kw.decay_rate)
  else Except.error ("invalid decay method!")

/-! ## PSNR evaluation (`print_psnr`) -/

/-- A plain numpy array for `_eval_psnr`: shape plus flat data. -/
structure NpArr where
  shape : List ℕ
  data : List ℚ
deriving DecidableEq

/-- `label[0]` on a 4-dimensional array: drop the batch axis; the flat data of
the first batch element is the first `prod`-of-remaining-shape entries. -/
def firstOfBatch (a : NpArr) : NpArr :=
  ⟨a.shape.tail, a.data.take a.shape.tail.prod⟩

/-- The label normalization of `_eval_psnr` (Callbacks.py:113-114):
`if label.ndim == 4: label = label[0]`. -/
def normalizeLabel (label : NpArr) : NpArr :=
  if label.shape.length = 4 then firstOfBatch label else label

/-- `np.mean(np.square(output - label))` over the flat data. -/
def mseQ (a b : List ℚ) : ℚ :=
  (List.zipWith (fun x y => (x - y) ^ 2) a b).sum / (a.length : ℚ)

/-- `20 * np.log10(255 / np.sqrt(mse))` under IEEE float semantics: for
`mse = 0` the division yields `+inf` and so does `log10`, hence `⊤`; a mean of
squares is never negative. -/
noncomputable def psnrVal (mse : ℚ) : EReal :=
  if mse = 0 then (⊤ : EReal)
  else ((20 * Real.logb 10 ((255 : ℝ) / Real.sqrt (mse : ℝ)) : ℝ) : EReal)

/-- `_eval_psnr` (Callbacks.py:108-119) on array inputs: normalize the label,
`assert output.shape == label.shape` (an `AssertionError` aborts the call),
then compute and print the PSNR. -/
noncomputable def _eval_psnr (output label : NpArr) : Except String EReal :=
  if output.shape = (normalizeLabel label).shape then
    Except.ok (psnrVal (mseQ output.data (normalizeLabel label).data))
  else Except.error ("AssertionError")

/-- The console line `f'PSNR = {psnr:.2f}dB'` printed by `_eval_psnr`; the
numeric float formatting `:.2f` is abstracted as `render`. -/
noncomputable def psnrPrinted (render : EReal → String) (output label : NpArr) :
    Except String String :=
  match _eval_psnr output label with
  | Except.error e => Except.error e
  | Except.ok p => Except.ok ("PSNR = " ++ render p ++ "dB")

/-- `print_psnr` (Callbacks.py:126-127) returns `_eval_psnr` itself. -/
noncomputable def print_psnr : NpArr → NpArr → Except String EReal := _eval_psnr

/-! ## Channel slicing (`to_gray`, `to_uv`) -/

/-- For the channel-slicing callbacks an array is embedded as the list of its
last-axis fibers (all leading axes flattened): `inputs[..., s]` slices every
fiber by `s`. -/
def _gray_colored_image (inputs : List (List ℚ)) : List (List ℚ) :=
  inputs.map (fun p => p.take 1)

/-- `_uv_colored_image` (Callbacks.py:146-147): `inputs[..., 1:]`. -/
def _uv_colored_image (inputs : List (List ℚ)) : List (List ℚ) :=
  inputs.map (fun p => p.drop 1)

/-- `to_gray` (Callbacks.py:138-142) returns `_gray_colored_image`
(`inputs[..., 0:1]`). -/
def to_gray : List (List ℚ) → List (List ℚ) := _gray_colored_image

/-- `to_uv` (Callbacks.py:145-149) returns `_uv_colored_image`. -/
def to_uv : List (List ℚ) → List (List ℚ) := _uv_colored_image

/-- `np.concatenate(·, ·, axis=-1)` on the fiber representation. -/
def concatLast (a b : List (List ℚ)) : List (List ℚ) :=
  List.zipWith (fun p q => p ++ q) a b

/-! ## Helper lemmas -/

theorem list_zipWith_sub_replicate (l : List ℚ) :
    List.zipWith (fun x y => x - y) l (List.replicate l.length 0) = l := by
  induction l with
  | nil => rfl
  | cons a t ih => simp [List.replicate_succ, ih]

theorem npSub_zeros (l : List ℚ) : npSub l (List.replicate l.length 0) = Except.ok l := by
  rcases l with _ | ⟨a, _ | ⟨b, t⟩⟩
  · rfl
  · simp [npSub]
  · have h := list_zipWith_sub_replicate (a :: b :: t)
    simp only [List.length_cons] at h ⊢
    simp [npSub, h]

theorem npSub_of_length_eq (a b : List ℚ) (h : a.length = b.length) :
    npSub a b = Except.ok (List.zipWith (fun x y => x - y) a b) := by
  by_cases hb : b.length = 1
  · rcases List.length_eq_one.mp hb with ⟨y, rfl⟩
    rcases List.length_eq_one.mp (h.trans hb) with ⟨x, rfl⟩
    simp [npSub]
  · have ha : ¬ a.length = 1 := by omega
    simp [npSub, hb, ha, h]

/-! ## Claims -/

/-- Claim C1, counterexample: with `output` given as a single two-element array,
`reduce_residual` does not return `input - output`; the Python idiom
`kwargs.get('output') or np.zeros_like(img)` evaluates the truth value of the
array, which is ambiguous for an array with more than one element, so the call
raises instead of subtracting. -/
theorem C1_reduce_residual_counterexample :
    reduce_residual [(0:ℚ), 0] (PyOut.arr [1, 1]) = Except.error ("ambiguous truth value") ∧
    reduce_residual [(0:ℚ), 0] (PyOut.arr [1, 1]) ≠
      Except.ok (List.zipWith (fun a b => a - b) [(0:ℚ), 0] [1, 1]) := by
  refine ⟨rfl, ?_⟩
  intro h
  rw [show reduce_residual [(0:ℚ), 0] (PyOut.arr [1, 1]) =
        Except.error ("ambiguous truth value") from rfl] at h
  exact Except.noConfusion h

/-- Claim C1 (amended): the callable returned by `reduce_residual` returns the
input unchanged when `output` is `None`, returns `input - output[0]` when
`output` is a non-empty list, and returns `input - output` when `output` is a
single array with exactly one element; a single array with more than one
element makes the call raise an ambiguous-truth-value error. -/
theorem C1_reduce_residual_amended (A : List ℚ) :
    reduce_residual A PyOut.none = Except.ok A ∧
    (∀ (x : List ℚ) (xs : List (List ℚ)), x.length = A.length →
      reduce_residual A (PyOut.list (x :: xs)) =
        Except.ok (List.zipWith (fun a b => a - b) A x)) ∧
    (∀ v : ℚ, reduce_residual A (PyOut.arr [v]) = Except.ok (A.map (fun a => a - v))) := by
  refine ⟨npSub_zeros A, ?_, ?_⟩
  · intro x xs hx
    exact npSub_of_length_eq A x hx.symm
  · intro v
    by_cases hv : v = 0
    · subst hv
      show _sub_residual A (PyOut.arr [0]) = _
      rw [show _sub_residual A (PyOut.arr [0]) = npSub A (List.replicate A.length 0) by
        simp [_sub_residual]]
      rw [npSub_zeros]
      simp
    · show _sub_residual A (PyOut.arr [v]) = _
      rw [show _sub_residual A (PyOut.arr [v]) = npSub A [v] by simp [_sub_residual, hv]]
      simp [npSub]

/-- Claim C1, witness for the amended theorem at a concrete input. -/
theorem C1_reduce_residual_witness :
    reduce_residual [(1:ℚ), 2] (PyOut.list [[1, 1]]) =
      Except.ok (List.zipWith (fun a b => a - b) [(1:ℚ), 2] [1, 1]) :=
  (C1_reduce_residual_amended [1, 2]).2.1 [1, 1] [] (by decide)

/-- Claim C2: `lr_decay` returns a decay callable exactly for the method names
'exp', 'poly', 'stair', and raises the invalid-argument error for every other
name. -/
theorem C2_lr_decay_dispatch (method : String) (lr : ℝ) (kw : DecayKwargs) :
    ((∃ f, lr_decay method lr kw = Except.ok f) ↔
      (method = "exp" ∨ method = "poly" ∨ method = "stair")) ∧
    (¬ (method = "exp" ∨ method = "poly" ∨ method = "stair") →
      lr_decay method lr kw = Except.error ("invalid decay method!")) := by
  constructor
  · constructor
    · rintro ⟨f, hf⟩
      by_contra hm
      push_neg at hm
      obtain ⟨h1, h2, h3⟩ := hm
      simp [lr_decay, h1, h2, h3] at hf
    · rintro (h | h | h) <;> subst h <;> exact ⟨_, rfl⟩
  · intro hm
    push_neg at hm
    obtain ⟨h1, h2, h3⟩ := hm
    simp [lr_decay, h1, h2, h3]

/-- Claim C2, witness: an unrecognized method name raises. -/
theorem C2_lr_decay_witness :
    lr_decay "unknown" 1 ⟨1, 1, 1, 1⟩ = Except.error ("invalid decay method!") :=
  (C2_lr_decay_dispatch "unknown" 1 ⟨1, 1, 1, 1⟩).2 (by decide)

theorem map_take_one_length (x : List (List ℚ)) (hx : ∀ p ∈ x, 1 ≤ p.length) :
    (x.map (fun p => p.take 1)).map List.length = List.replicate x.length 1 := by
  induction x with
  | nil => rfl
  | cons p t ih =>
      have h1 : 1 ≤ p.length := hx p (List.mem_cons_self p t)
      have ht := ih (fun q hq => hx q (List.mem_cons_of_mem p hq))
      simp [List.length_take, Nat.min_eq_left h1, List.replicate_succ, ht]

theorem take_one_append_tail (p : List ℚ) : p.take 1 ++ p.tail = p := by
  cases p with
  | nil => rfl
  | cons a t => rfl

theorem concat_take_drop (x : List (List ℚ)) :
    List.zipWith (fun p q => p ++ q)
      (x.map (fun p => p.take 1)) (x.map (fun p => p.drop 1)) = x := by
  induction x with
  | nil => rfl
  | cons p t ih =>
      simp only [List.map_cons, List.zipWith_cons_cons, List.take_append_drop]
      rw [ih]

/-- Claim C9: `to_gray` keeps exactly the first channel (with the channel axis
retained, so every fiber of the result has length 1) and `to_uv` keeps the
remaining channels, and concatenating the two along the last axis reassembles
the input array exactly. -/
theorem C9_gray_uv_reassembly (x : List (List ℚ)) (hx : ∀ p ∈ x, 1 ≤ p.length) :
    concatLast (to_gray x) (to_uv x) = x ∧
    (to_gray x).map List.length = List.replicate x.length 1 := by
  exact ⟨concat_take_drop x, map_take_one_length x hx⟩
/-- Claim C9, witness at a concrete two-fiber, three-channel array. -/
theorem C9_gray_uv_witness :
    concatLast (to_gray [[1, 2, 3], [(4:ℚ), 5, 6]]) (to_uv [[1, 2, 3], [(4:ℚ), 5, 6]]) =
      [[1, 2, 3], [(4:ℚ), 5, 6]] :=
  (C9_gray_uv_reassembly [[1, 2, 3], [(4:ℚ), 5, 6]] (by decide)).1

/-- Claim C10: each decay formula ignores its call-time `lr` and `epochs`
arguments; two invocations differing only in those yield the same learning
rate. -/
theorem C10_decay_ignores_lr_epochs
    (lr₁ lr₂ s el e₁ e₂ steps d r p : ℝ) :
    _exponential_decay lr₁ s e₁ steps d r = _exponential_decay lr₂ s e₂ steps d r ∧
    _poly_decay lr₁ s el e₁ steps d p = _poly_decay lr₂ s el e₂ steps d p ∧
    _stair_decay lr₁ s e₁ steps d r = _stair_decay lr₂ s e₂ steps d r :=
  ⟨rfl, rfl, rfl⟩

/-- Claim C4: the exponential-decay callable obtained from
`lr_decay('exp', lr=1.0, decay_step=10, decay_rate=0.5)` returns 1.0 at
steps = 0 and 0.5 at steps = decay_step, and in general computes
`start_lr * decay_rate ^ (steps / decay_step)`. -/
theorem C4_exponential_decay_values (el pw lr₁ e₁ lr₂ e₂ : ℝ) :
    ∃ f, lr_decay "exp" 1 ⟨10, 1/2, el, pw⟩ = Except.ok f ∧
      f lr₁ e₁ 0 = 1 ∧
      f lr₂ e₂ 10 = 1/2 ∧
      ∀ lr' ep steps, f lr' ep steps = 1 * (1/2 : ℝ) ^ ((steps / 10 : ℝ)) := by
  refine ⟨_, rfl, ?_, ?_, fun _ _ _ => rfl⟩
  · show _exponential_decay lr₁ 1 e₁ 0 10 (1/2) = 1
    unfold _exponential_decay
    rw [zero_div, Real.rpow_zero, one_mul]
  · show _exponential_decay lr₂ 1 e₂ 10 10 (1/2) = 1/2
    unfold _exponential_decay
    rw [div_self (by norm_num : (10:ℝ) ≠ 0), Real.rpow_one, one_mul]

theorem zipWith_add_zeros (l : List ℚ) :
    List.zipWith (fun a b => a + b) l (List.replicate l.length 0) = l := by
  induction l with
  | nil => rfl
  | cons a t ih => simp [List.replicate_succ, ih]

/-- Claim C5: with stddev 0 (so the realized Gaussian sample is exactly the
zero array of the feature's size) and clip = False under the default mean 0,
the `add_noise` callable returns the input unchanged in value (as float). -/
theorem C5_add_noise_identity (feature noise : List ℚ)
    (h : isNormalSample 0 0 feature.length noise) :
    add_noise false feature noise = feature := by
  obtain ⟨-, hz⟩ := h
  rw [show add_noise false feature noise = _add_noise feature noise false from rfl, hz rfl]
  show List.zipWith (fun a b => a + b) feature (List.replicate feature.length 0) = feature
  exact zipWith_add_zeros feature

/-- Claim C5, witness at a concrete one-pixel feature. -/
theorem C5_add_noise_witness : add_noise false [(5:ℚ)] [0] = [5] :=
  C5_add_noise_identity [5] [0] ⟨rfl, fun _ => rfl⟩

theorem clip255_bounds (x : ℚ) : 0 ≤ clip255 x ∧ clip255 x ≤ 255 :=
  ⟨le_max_left 0 _, max_le (by norm_num) (min_le_left 255 x)⟩

theorem pyRangeAux_mem (step high : ℤ) (hs : 0 < step) :
    ∀ (fuel : ℕ) (cur x : ℤ), x ∈ pyRangeAux step high fuel cur →
      ∃ k : ℕ, x = cur + (k : ℤ) * step ∧ x < high := by
  intro fuel
  induction fuel with
  | zero => intro cur x hx; simp [pyRangeAux] at hx
  | succ n ih =>
      intro cur x hx
      simp only [pyRangeAux] at hx
      by_cases hc : cur < high
      · rw [if_pos hc] at hx
        rcases List.mem_cons.mp hx with h | h
        · exact ⟨0, by simp [h], h ▸ hc⟩
        · obtain ⟨k, hk, hklt⟩ := ih (cur + step) x h
          refine ⟨k + 1, ?_, hklt⟩
          rw [hk]
          push_cast
          ring
      · rw [if_neg hc] at hx
        simp at hx

/-- Claim C6: with clip = True every element produced by the noise callables
lies in [0, 255], for every feature, noise realization, and noise parameters;
and the stddev drawn by `add_random_noise` is an element of the arithmetic
progression starting at `low` with increment `step`, strictly below `high`. -/
theorem C6_noise_clip_and_range :
    (∀ (feature noise : List ℚ) (x : ℚ),
        x ∈ _add_noise feature noise true → 0 ≤ x ∧ x ≤ 255) ∧
    (∀ (feature noise : List ℚ) (low high step : ℤ) (i : ℕ) (s : ℤ) (r : List ℚ),
        0 < step →
        _add_random_noise feature noise low high step i true = Except.ok (s, r) →
        ((∃ k : ℕ, s = low + (k : ℤ) * step) ∧ s < high) ∧
        ∀ x ∈ r, 0 ≤ x ∧ x ≤ 255) := by
  have hclip : ∀ (feature noise : List ℚ) (x : ℚ),
      x ∈ _add_noise feature noise true → 0 ≤ x ∧ x ≤ 255 := by
    intro feature noise x hx
    unfold _add_noise at hx
    rw [if_pos rfl] at hx
    obtain ⟨y, -, rfl⟩ := List.mem_map.mp hx
    exact clip255_bounds y
  refine ⟨hclip, ?_⟩
  intro feature noise low high step i s r hstep heq
  unfold _add_random_noise at heq
  split at heq
  · simp only [Except.ok.injEq, Prod.mk.injEq] at heq
    obtain ⟨hs, hr⟩ := heq
    constructor
    · have hmem : s ∈ pyRange low high step := hs ▸ List.get_mem _ _ _
      have hpr : pyRange low high step = pyRangeAux step high (high - low).toNat low := by
        unfold pyRange
        rw [if_pos hstep]
      rw [hpr] at hmem
      obtain ⟨k, hk, hklt⟩ := pyRangeAux_mem step high hstep _ low s hmem
      exact ⟨⟨k, hk⟩, hklt⟩
    · intro x hx
      exact hclip feature noise x (hr ▸ hx)
  · exact absurd heq (by simp)

/-- Claim C6, witness: drawing index 1 from `range(1, 10, 2)` gives stddev 3,
which is strictly below the bound 10. -/
theorem C6_noise_clip_witness : (3:ℤ) < 10 :=
  ((C6_noise_clip_and_range.2 [300] [10] 1 10 2 1 3 (_add_noise [300] [10] true)
      (by decide) rfl).1).2

/-- Claim C7: `print_psnr` fails via an assertion error exactly when the output
and normalized-label shapes differ; when they match it returns the PSNR of the
two arrays and prints the line `PSNR = {value}dB` (the float rendering of the
value is abstracted as `render`). -/
theorem C7_print_psnr_assert_iff (output label : NpArr) :
    ((∃ p, _eval_psnr output label = Except.ok p) ↔
      output.shape = (normalizeLabel label).shape) ∧
    (output.shape = (normalizeLabel label).shape →
      _eval_psnr output label =
        Except.ok (psnrVal (mseQ output.data (normalizeLabel label).data)) ∧
      ∀ render, psnrPrinted render output label =
        Except.ok ("PSNR = " ++
          render (psnrVal (mseQ output.data (normalizeLabel label).data)) ++ "dB")) := by
  constructor
  · constructor
    · rintro ⟨p, hp⟩
      by_contra hne
      unfold _eval_psnr at hp
      rw [if_neg hne] at hp
      exact Except.noConfusion hp
    · intro h
      exact ⟨_, by unfold _eval_psnr; rw [if_pos h]⟩
  · intro h
    have he : _eval_psnr output label =
        Except.ok (psnrVal (mseQ output.data (normalizeLabel label).data)) := by
      unfold _eval_psnr
      rw [if_pos h]
    refine ⟨he, fun render => ?_⟩
    unfold psnrPrinted
    rw [he]

/-- Claim C7, witness at a concrete matching pair of arrays. -/
theorem C7_print_psnr_witness :
    _eval_psnr ⟨[2], [1, 2]⟩ ⟨[2], [1, 2]⟩ =
      Except.ok (psnrVal (mseQ [1, 2] (normalizeLabel ⟨[2], [1, 2]⟩).data)) :=
  ((C7_print_psnr_assert_iff ⟨[2], [1, 2]⟩ ⟨[2], [1, 2]⟩).2 (by decide)).1

/-- Claim C8, counterexample: for identical 4-dimensional output and label
arrays the call raises, because only the label is stripped of its batch axis
and the shapes then mismatch, so the assertion fires before the PSNR is ever
computed. -/
theorem C8_psnr_identical_counterexample :
    _eval_psnr ⟨[1, 1, 1, 1], [(7:ℚ)]⟩ ⟨[1, 1, 1, 1], [(7:ℚ)]⟩ =
      Except.error ("AssertionError") := rfl

theorem mseQ_self (l : List ℚ) : mseQ l l = 0 := by
  unfold mseQ
  have h : List.zipWith (fun x y => (x - y) ^ 2) l l = List.replicate l.length 0 := by
    induction l with
    | nil => rfl
    | cons a t ih => simp [List.replicate_succ, ih]
  rw [h]
  simp

/-- Claim C8 (amended): when `print_psnr` is invoked with identical, non-empty
output and label arrays whose number of dimensions is not 4 (a 4-dimensional
pair trips the assertion, see the counterexample), it does not raise: the mean
squared error is 0, the division inside the formula yields +inf, and the
printed PSNR value is +inf. -/
theorem C8_psnr_identical_amended (a : NpArr) (h4 : a.shape.length ≠ 4)
    (hne : a.data ≠ []) :
    _eval_psnr a a = Except.ok (⊤ : EReal) ∧
    ∀ render, psnrPrinted render a a =
      Except.ok ("PSNR = " ++ render (⊤ : EReal) ++ "dB") := by
  have hn : normalizeLabel a = a := by
    unfold normalizeLabel
    rw [if_neg h4]
  have he : _eval_psnr a a = Except.ok (⊤ : EReal) := by
    unfold _eval_psnr
    rw [hn, if_pos rfl, mseQ_self]
    unfold psnrVal
    rw [if_pos rfl]
  refine ⟨he, fun render => ?_⟩
  unfold psnrPrinted
  rw [he]

/-- Claim C8, witness at a concrete non-empty 1-dimensional array. -/
theorem C8_psnr_identical_witness :
    _eval_psnr ⟨[2], [3, 4]⟩ ⟨[2], [3, 4]⟩ = Except.ok (⊤ : EReal) :=
  (C8_psnr_identical_amended ⟨[2], [3, 4]⟩ (by decide) (by decide)).1

theorem squeezeFold_cons (sh : List ℕ) (i : ℕ) (rest : List ℕ) :
    squeezeFold sh (i :: rest) = squeezeFold ((npSqueezeAxis sh i).getD sh) rest := rfl

theorem to_normalized_image_eq (a : NdImg) (D : List ℚ)
    (hD : normalizeScale a = Except.ok D) :
    _to_normalized_image a =
      (if (squeezeLoop a.shape).length = 2 then
        Except.ok ⟨"L", squeezeLoop a.shape, D.map clip255⟩
      else if (squeezeLoop a.shape).length = 3 then
        Except.ok ⟨"YCbCr", squeezeLoop a.shape, D.map clip255⟩
      else Except.error
        ("Invalid img data, must be an array of 2D image1 with channel less than 3")) := by
  unfold _to_normalized_image
  rw [hD]

theorem save_single_eq (a : NdImg) (img : PILImg)
    (h : _to_normalized_image a = Except.ok img) (index : ℕ) :
    _save_model_predicted_images (Option.some (ModelOut.single a)) index =
      Except.ok (Option.some (savedPixels img)) := by
  show (match _to_normalized_image a with
    | Except.error e => Except.error e
    | Except.ok img => Except.ok (Option.some (savedPixels img))) =
    Except.ok (Option.some (savedPixels img))
  rw [h]

theorem squeezeLoop_batch (H W C : ℕ) (hW : W ≠ 1) :
    squeezeLoop [1, H, W, C] = if C = 1 then [H, W] else [H, W, C] := by
  by_cases hC : C = 1
  · subst hC
    rw [if_pos rfl]
    show squeezeFold [1, H, W, 1] [0, 1, 2, 3] = [H, W]
    rw [squeezeFold_cons, show npSqueezeAxis [1, H, W, 1] 0 = some [H, W, 1] from rfl,
      Option.getD_some, squeezeFold_cons,
      show npSqueezeAxis [H, W, 1] 1 = if W = 1 then some [H, 1] else none from rfl,
      if_neg hW, Option.getD_none, squeezeFold_cons,
      show npSqueezeAxis [H, W, 1] 2 = some [H, W] from rfl, Option.getD_some,
      squeezeFold_cons, show npSqueezeAxis [H, W] 3 = none from rfl, Option.getD_none]
    rfl
  · rw [if_neg hC]
    show squeezeFold [1, H, W, C] [0, 1, 2, 3] = [H, W, C]
    rw [squeezeFold_cons, show npSqueezeAxis [1, H, W, C] 0 = some [H, W, C] from rfl,
      Option.getD_some, squeezeFold_cons,
      show npSqueezeAxis [H, W, C] 1 = if W = 1 then some [H, C] else none from rfl,
      if_neg hW, Option.getD_none, squeezeFold_cons,
      show npSqueezeAxis [H, W, C] 2 = if C = 1 then some [H, W] else none from rfl,
      if_neg hC, Option.getD_none, squeezeFold_cons,
      show npSqueezeAxis [H, W, C] 3 = none from rfl, Option.getD_none]
    rfl

/-- Claim C3, counterexample: a float64 array with all values ≤ 1.0 is *not*
scaled by 255 (the code tests for the exact dtype float32), so the saved pixel
values do not equal the scaled input claimed for floating-point dtypes. -/
theorem C3_save_image_counterexample :
    _save_model_predicted_images
        (Option.some (ModelOut.single ⟨[2, 2], NpDtype.float64, [1, 1, 1, 1]⟩)) 0 =
      Except.ok (Option.some [1, 1, 1, 1]) ∧
    _save_model_predicted_images
        (Option.some (ModelOut.single ⟨[2, 2], NpDtype.float64, [1, 1, 1, 1]⟩)) 0 ≠
      Except.ok (Option.some ([(1:ℚ), 1, 1, 1].map (fun x => x * 255))) := by
  refine ⟨rfl, ?_⟩
  rw [show _save_model_predicted_images
      (Option.some (ModelOut.single ⟨[2, 2], NpDtype.float64, [1, 1, 1, 1]⟩)) 0 =
      Except.ok (Option.some [(1:ℚ), 1, 1, 1]) from rfl]
  intro h
  injection h with h'
  injection h' with h''
  have hm : ([(1:ℚ), 1, 1, 1].map (fun x => x * 255)) = [255, 255, 255, 255] := by
    norm_num
  rw [hm] at h''
  exact absurd h'' (by decide)

/-- Claim C3 (amended): for an input of shape `[1, H, W, C]` with `W ≠ 1`, the
squeeze loop yields `[H, W, C]` (or `[H, W]` when `C = 1`); the data are scaled
by 255 exactly when the dtype is float32 (not for other floating dtypes) and
the maximum value is at most 1.0, then clipped to [0, 255]; and the saved pixel
values equal this clipped/scaled input. -/
theorem C3_save_image_amended (H W C : ℕ) (hW : W ≠ 1) (d : NpDtype)
    (data : List ℚ) (m : ℚ) (hm : data.max? = Option.some m) :
    squeezeLoop [1, H, W, C] = (if C = 1 then [H, W] else [H, W, C]) ∧
    _save_model_predicted_images
        (Option.some (ModelOut.single ⟨[1, H, W, C], d, data⟩)) 0 =
      Except.ok (Option.some
        ((if d = NpDtype.float32 ∧ m ≤ 1
          then data.map (fun x => x * 255) else data).map clip255)) := by
  refine ⟨squeezeLoop_batch H W C hW, ?_⟩
  have hscale : normalizeScale ⟨[1, H, W, C], d, data⟩ =
      Except.ok (if d = NpDtype.float32 ∧ m ≤ 1
        then data.map (fun x => x * 255) else data) := by
    unfold normalizeScale
    by_cases hd : d = NpDtype.float32
    · rw [if_pos hd]
      show (match data.max? with
        | Option.none => Except.error ("zero-size array to reduction operation maximum")
        | Option.some m => Except.ok (if m ≤ 1 then data.map (fun x => x * 255) else data)) = _
      rw [hm]
      by_cases h1 : m ≤ 1
      · simp [h1, hd]
      · simp [h1, hd]
    · rw [if_neg hd]
      simp [hd]
  have hnorm := to_normalized_image_eq ⟨[1, H, W, C], d, data⟩ _ hscale
  rw [show (NdImg.mk [1, H, W, C] d data).shape = [1, H, W, C] from rfl,
    squeezeLoop_batch H W C hW] at hnorm
  by_cases hC : C = 1
  · rw [if_pos hC] at hnorm
    rw [if_pos (show ([H, W].length = 2) from rfl)] at hnorm
    exact save_single_eq _ _ hnorm 0
  · rw [if_neg hC] at hnorm
    rw [if_neg (show ¬ ([H, W, C].length = 2) from by simp)] at hnorm
    rw [if_pos (show ([H, W, C].length = 3) from rfl)] at hnorm
    exact save_single_eq _ _ hnorm 0

/-- Claim C3, witness: a float32 `[1, 2, 2, 1]` array of ones is squeezed,
scaled by 255 and clipped. -/
theorem C3_save_image_witness :
    _save_model_predicted_images
        (Option.some (ModelOut.single ⟨[1, 2, 2, 1], NpDtype.float32, [1, 1, 1, 1]⟩)) 0 =
      Except.ok (Option.some
        ((if NpDtype.float32 = NpDtype.float32 ∧ (1:ℚ) ≤ 1
          then [(1:ℚ), 1, 1, 1].map (fun x => x * 255)
          else [(1:ℚ), 1, 1, 1]).map clip255)) :=
  (C3_save_image_amended 2 2 1 (by decide) NpDtype.float32 [1, 1, 1, 1] 1 (by decide)).2
